import Mathlib

/-!
Verification of the invocation engine of `backend/src/services/amazon_q_service.py`:
prompt safety validation, the CLI retry loop, and the multi-tier transcript parser.

Text is modelled as `List Char` (Python `str`).  Pure Python string operations are
translated function-by-function; the handful of regular expressions the service uses
are each translated to a dedicated matcher that implements the same leftmost-match
semantics on the concrete pattern (the patterns are simple enough that greedy
matching is deterministic, which is argued in the comment at each matcher).
-/

namespace AmazonQ

/-- The newline character. -/
def nlChar : Char := Char.ofNat 10

/-- The carriage-return character. -/
def crChar : Char := Char.ofNat 13

/-- The ANSI escape character `\x1B`. -/
def escChar : Char := Char.ofNat 27

/-- The apostrophe character. -/
def aposChar : Char := Char.ofNat 39

/-- Python `\s` / `str.strip` whitespace, restricted to ASCII:
space, tab, newline, vertical tab, form feed, carriage return. -/
def pyIsSpace (c : Char) : Bool :=
  c = ' ' || (9 ≤ c.toNat && c.toNat ≤ 13)

/-- Python regex `\w` on ASCII text: letters, digits, underscore. -/
def isWordChar (c : Char) : Bool :=
  (('a' ≤ c && c ≤ 'z') || ('A' ≤ c && c ≤ 'Z') || ('0' ≤ c && c ≤ '9') || c = '_')

/-- ASCII lowering of one character (Python `str.lower` on the ASCII text
the service handles). -/
def asciiLowerChar (c : Char) : Char :=
  if 'A' ≤ c && c ≤ 'Z' then Char.ofNat (c.toNat + 32) else c

/-- Python `str.lower` (ASCII). -/
def asciiLower (l : List Char) : List Char := l.map asciiLowerChar

/-- Python substring test `p in l` (for non-empty `p`). -/
def containsSub (p : List Char) : List Char → Bool
  | [] => p.isEmpty
  | c :: rest => p.isPrefixOf (c :: rest) || containsSub p rest

/-- Python `str.strip()`: drop leading and trailing whitespace. -/
def pyStrip (l : List Char) : List Char :=
  ((l.dropWhile pyIsSpace).reverse.dropWhile pyIsSpace).reverse

/-- Python `str.split("\n")`: split at every newline, keeping empty pieces. -/
def splitLinesNL : List Char → List (List Char)
  | [] => [[]]
  | c :: rest =>
    if c = nlChar then [] :: splitLinesNL rest
    else
      match splitLinesNL rest with
      | l :: ls => (c :: l) :: ls
      | [] => [[c]]

/-- Python `"\n".join(lines)`. -/
def joinNL : List (List Char) → List Char
  | [] => []
  | [l] => l
  | l :: ls => l ++ nlChar :: joinNL ls

/-!
## ANSI stripping

`_parse_cli_output` first removes ANSI escape sequences:
`ESC` followed either by one byte in `0x40–0x5A, 0x5C–0x5F`, or by `[`,
parameter bytes `0x30–0x3F`, intermediate bytes `0x20–0x2F` and a final byte
`0x40–0x7E` (the `ansi_escape` regex of the source, translated class by class).
The matcher below is a character-level state machine for that pattern.  All the
character classes involved are pairwise disjoint, so the greedy sub-matches are
forced and a single left-to-right pass is faithful; when the pattern fails at an
`ESC`, `re.sub` keeps the `ESC` and resumes scanning at the next character — the
buffered characters (which can never contain another `ESC`) are flushed verbatim.
-/

/-- The single-byte alternative of the ANSI pattern: `0x40–0x5A` or `0x5C–0x5F`
(`[` itself, `0x5B`, is handled by the CSI alternative). -/
def isAnsiSingle (c : Char) : Bool :=
  (64 ≤ c.toNat && c.toNat ≤ 90) || (92 ≤ c.toNat && c.toNat ≤ 95)

/-- CSI parameter bytes `0x30–0x3F`. -/
def isCsiParam (c : Char) : Bool := 48 ≤ c.toNat && c.toNat ≤ 63

/-- CSI intermediate bytes `0x20–0x2F`. -/
def isCsiInter (c : Char) : Bool := 32 ≤ c.toNat && c.toNat ≤ 47

/-- CSI final bytes `0x40–0x7E`. -/
def isCsiFinal (c : Char) : Bool := 64 ≤ c.toNat && c.toNat ≤ 126

/-- Scanner state for the ANSI stripper: outside any escape, after a bare `ESC`,
inside the parameter bytes of a CSI sequence, or inside its intermediate bytes.
The two CSI states buffer the consumed bytes so they can be flushed on failure. -/
inductive AnsiState where
  | normal
  | sawEsc
  | csiParams (seen : List Char)
  | csiInter (seen : List Char)

/-- Characters to emit when the input ends in a given scanner state
(a partial escape sequence never matches, so it is kept). -/
def ansiFlush : AnsiState → List Char
  | .normal => []
  | .sawEsc => [escChar]
  | .csiParams seen => escChar :: '[' :: seen
  | .csiInter seen => escChar :: '[' :: seen

/-- One pass of the ANSI stripper. -/
def stripAnsiGo : AnsiState → List Char → List Char
  | st, [] => ansiFlush st
  | .normal, c :: rest =>
    if c = escChar then stripAnsiGo .sawEsc rest
    else c :: stripAnsiGo .normal rest
  | .sawEsc, c :: rest =>
    if c = '[' then stripAnsiGo (.csiParams []) rest
    else if isAnsiSingle c then stripAnsiGo .normal rest
    else if c = escChar then escChar :: stripAnsiGo .sawEsc rest
    else escChar :: c :: stripAnsiGo .normal rest
  | .csiParams seen, c :: rest =>
    if isCsiParam c then stripAnsiGo (.csiParams (seen ++ [c])) rest
    else if isCsiInter c then stripAnsiGo (.csiInter (seen ++ [c])) rest
    else if isCsiFinal c then stripAnsiGo .normal rest
    else if c = escChar then (escChar :: '[' :: seen) ++ stripAnsiGo .sawEsc rest
    else (escChar :: '[' :: seen) ++ c :: stripAnsiGo .normal rest
  | .csiInter seen, c :: rest =>
    if isCsiInter c then stripAnsiGo (.csiInter (seen ++ [c])) rest
    else if isCsiFinal c then stripAnsiGo .normal rest
    else if c = escChar then (escChar :: '[' :: seen) ++ stripAnsiGo .sawEsc rest
    else (escChar :: '[' :: seen) ++ c :: stripAnsiGo .normal rest

/-- The full ANSI-escape removal performed at the top of `_parse_cli_output`. -/
def stripAnsi (l : List Char) : List Char := stripAnsiGo .normal l

/-!
## The transcript parser `_parse_cli_output`
-/

/-- The response-opening marker patterns the primary parsing pass scans for
(matched case-sensitively with Python `in`). -/
def responseMarkers : List (List Char) :=
  [ "> I".data ++ aposChar :: "ll help".data
  , "> I".data ++ aposChar :: "ll analyze".data
  , "> Let me help".data
  , "> Let".data ++ aposChar :: "s analyze".data
  , "> I can help".data
  , "> I".data ++ aposChar :: "ll assist".data
  , "> I".data ++ aposChar :: "m analyzing".data
  , "> I".data ++ aposChar :: "ll start".data ]

/-- Does a line contain one of the response-opening markers? -/
def markerIn (line : List Char) : Bool :=
  responseMarkers.any (fun p => containsSub p line)

/-- The status lines skipped while capturing the response section. -/
def skipPatterns : List (List Char) :=
  [ "Command exited with code".data
  , "Execution finished".data
  , "CLI completed".data ]

/-- Does a line contain one of the skip patterns? -/
def skipIn (line : List Char) : Bool :=
  skipPatterns.any (fun p => containsSub p line)

/-- The primary parsing pass: walk the ANSI-stripped lines with an
`in_response_section` flag; blank lines before the marker are skipped, the flag is
set on the first line containing a marker, and from then on every non-blank line
that is not a known status artifact is collected (the marker line included). -/
def responseLines : List (List Char) → Bool → List (List Char)
  | [], _ => []
  | line :: rest, inResp =>
    if (pyStrip line).isEmpty && !inResp then responseLines rest inResp
    else
      let inResp2 := if !inResp && markerIn line then true else inResp
      if inResp2 then
        if !(pyStrip line).isEmpty then
          if skipIn line then responseLines rest inResp2
          else line :: responseLines rest inResp2
        else responseLines rest inResp2
      else responseLines rest inResp2

/-- The domain keywords of fallback 1. -/
def fallbackKeywords : List (List Char) :=
  [ "analyze".data, "help".data, "check".data, "instances".data
  , "resources".data, "costs".data, "optimization".data ]

/-- Fallback 1's test for a meaningful line: contains a domain keyword
(checked on the lowered line) and strips to more than 10 characters. -/
def meaningfulLine (line : List Char) : Bool :=
  fallbackKeywords.any (fun w => containsSub w (asciiLower line)) &&
    decide (10 < (pyStrip line).length)

/-- Fallback 1: everything from the first meaningful line to the end
(`lines[meaningful_start:]`), if any line is meaningful. -/
def firstMeaningfulSuffix : List (List Char) → Option (List (List Char))
  | [] => none
  | line :: rest =>
    if meaningfulLine line then some (line :: rest)
    else firstMeaningfulSuffix rest

/-- Python `text.replace(pat, "")` for a non-empty `pat`: remove every
(leftmost, non-overlapping) occurrence.  Each step consumes at least one
character, so `text.length` is enough fuel. -/
def removeAllFuel (pat : List Char) : Nat → List Char → List Char
  | 0, l => l
  | _, [] => []
  | fuel + 1, c :: rest =>
    if pat.isPrefixOf (c :: rest) then
      removeAllFuel pat fuel ((c :: rest).drop pat.length)
    else c :: removeAllFuel pat fuel rest

/-- Python `text.replace(pat, "")`. -/
def removeAll (pat l : List Char) : List Char := removeAllFuel pat l.length l

/-- The artifact substrings removed by fallback 2, in source order. -/
def artifactPatterns : List (List Char) :=
  [ "Command exited with code".data
  , "Execution finished in".data
  , "Exit code:".data
  , "Process completed".data ]

/-- Fallback 2's artifact removal: sequential `str.replace` in source order. -/
def removeArtifacts (l : List Char) : List Char :=
  artifactPatterns.foldl (fun acc pat => removeAll pat acc) l

/-- The suffix of `run` strictly after its last newline. -/
def afterLastNewline (run : List Char) : List Char :=
  (run.reverse.takeWhile (fun c => !(c = nlChar))).reverse

/-- Number of newlines in a list. -/
def countNewlines (l : List Char) : Nat :=
  (l.filter (fun c => c = nlChar)).length

/-- Blank-line collapsing, `re.sub` of newline–whitespace–newline–whitespace–newline
to two newlines.  Every character of a match is whitespace, the match must start at
a newline and contain at least three newlines, and the backtracking engine always
ends the match at the last newline of the maximal whitespace run, so: at each
newline whose following whitespace run holds at least two more newlines, emit two
newlines and resume right after the last newline of the run. -/
def collapseFuel : Nat → List Char → List Char
  | 0, l => l
  | _, [] => []
  | fuel + 1, c :: rest =>
    if c = nlChar then
      let run := rest.takeWhile pyIsSpace
      if 2 ≤ countNewlines run then
        nlChar :: nlChar :: collapseFuel fuel (afterLastNewline run ++ rest.drop run.length)
      else c :: collapseFuel fuel rest
    else c :: collapseFuel fuel rest

/-- Blank-line collapsing of fallback 2. -/
def collapseNewlines (l : List Char) : List Char := collapseFuel l.length l

/-- The response text `_parse_cli_output` recovers from a raw transcript:
primary marker-driven pass, then fallback 1 below 200 characters, then
fallback 2 below 500 characters. -/
def computeResponse (raw : List Char) : List Char :=
  let cleaned := stripAnsi raw
  let lines := splitLinesNL cleaned
  let primary := joinNL (responseLines lines false)
  if primary.length < 200 then
    let afterFb1 :=
      match firstMeaningfulSuffix lines with
      | some suffix =>
        let fb := joinNL suffix
        if primary.length < fb.length then fb else primary
      | none => primary
    if afterFb1.length < 500 then
      pyStrip (collapseNewlines (removeArtifacts cleaned))
    else afterFb1
  else primary

/-- The dictionary `_parse_cli_output` returns. -/
structure ParseResult where
  response : List Char
  conversation_id : Option (List Char)
  source_attributions : List (List Char)
  raw_output : List Char
deriving DecidableEq

/-- `_parse_cli_output`: a total function of the raw transcript. -/
def parse_cli_output (raw : List Char) : ParseResult :=
  { response := computeResponse raw
  , conversation_id := none
  , source_attributions := []
  , raw_output := raw }

/-!
## Prompt validation inside `_run_cli_command`

The forbidden-command table is a Python `set` literal; it is modelled as a list
in source order.  Only which command is reported can depend on the (unspecified)
set iteration order — whether the prompt is rejected cannot.
-/

/-- `FORBIDDEN_AWS_CLI_COMMANDS`, in the order of the source literal. -/
def FORBIDDEN_AWS_CLI_COMMANDS : List (List Char) :=
  [ "create-".data, "delete-".data, "update-".data, "modify-".data, "put-".data
  , "post-".data, "patch-".data, "terminate-".data, "stop-".data, "start-".data
  , "reboot-".data, "restart-".data, "associate-".data, "disassociate-".data
  , "attach-".data, "detach-".data, "enable-".data, "disable-".data
  , "activate-".data, "deactivate-".data, "add-".data, "remove-".data
  , "replace-".data, "reset-".data, "restore-".data, "copy-".data, "move-".data
  , "upload-".data, "sync".data, "cp".data, "mv".data, "rm".data ]

/-- A character of a `--flag` token body: `\w` or `-`. -/
def isFlagChar (c : Char) : Bool := isWordChar c || c = '-'

/-- Flag stripping: one step of the sub of flag-token-and-optional-value with the
empty string.  At `--` followed by at least one flag character, the flag body is
the maximal flag-character run; then the optional value group consumes a maximal
whitespace run followed by a maximal non-whitespace run whose first character is
neither whitespace nor `-` (all sub-matches are forced: the adjoining character
classes are disjoint, and the optional group never has to be given up since the
match already succeeds without it).  If the `--` is not followed by a flag
character the pattern fails there and scanning resumes at the second `-`.
Every step consumes at least one character, so length is enough fuel. -/
def stripFlagsFuel : Nat → List Char → List Char
  | 0, l => l
  | _, [] => []
  | fuel + 1, c :: rest =>
    if c = '-' then
      match rest with
      | c2 :: rest2 =>
        if c2 = '-' then
          let flagRun := rest2.takeWhile isFlagChar
          if flagRun.isEmpty then c :: stripFlagsFuel fuel rest
          else
            let r := rest2.drop flagRun.length
            let sp := r.takeWhile pyIsSpace
            let valueLen :=
              if sp.isEmpty then 0
              else
                match r.drop sp.length with
                | d :: _ =>
                  if !pyIsSpace d && !(d = '-') then
                    sp.length + ((r.drop sp.length).takeWhile (fun x => !pyIsSpace x)).length
                  else 0
                | [] => 0
            stripFlagsFuel fuel (r.drop valueLen)
        else c :: stripFlagsFuel fuel rest
      | [] => [c]
    else c :: stripFlagsFuel fuel rest

/-- `re.sub` removing every `--flag[ value]` token from the prompt before the
forbidden-command patterns are matched. -/
def stripFlags (l : List Char) : List Char := stripFlagsFuel l.length l

/-- Word boundary `\b` directly after a literal `cmd` when the text continues
with `rest`: the word-ness of the last character of `cmd` and of the following
character (end of text counts as non-word) must differ. -/
def boundaryAfter (cmd rest : List Char) : Bool :=
  match cmd.getLast? with
  | none => false
  | some lastC =>
    isWordChar lastC != (match rest with | [] => false | c :: _ => isWordChar c)

/-- Does `cmd` followed by a word boundary match at the head of `s`?
(the `^cmd\b` pattern; `re.search` without MULTILINE anchors `^` at the start
of the whole text). -/
def matchCmdAt (cmd s : List Char) : Bool :=
  cmd.isPrefixOf s && boundaryAfter cmd (s.drop cmd.length)

/-- Is there a whitespace character followed by `cmd` and a word boundary
(the pattern of whitespace, then `cmd`, then a boundary)? -/
def existsSpaceThen (cmd : List Char) : List Char → Bool
  | [] => false
  | c :: rest => (pyIsSpace c && matchCmdAt cmd rest) || existsSpaceThen cmd rest

/-- Does `aws`, whitespace, one word, whitespace, then the literal `cmd` match at
the head of `s`?  (The greedy runs are forced: the classes on each side of every
boundary are disjoint, and every forbidden command starts with a letter.) -/
def matchAwsAt (cmd s : List Char) : Bool :=
  "aws".data.isPrefixOf s &&
    (let r := s.drop 3
     !(r.takeWhile pyIsSpace).isEmpty &&
       (let r2 := r.dropWhile pyIsSpace
        !(r2.takeWhile isWordChar).isEmpty &&
          (let r3 := r2.dropWhile isWordChar
           !(r3.takeWhile pyIsSpace).isEmpty &&
             cmd.isPrefixOf (r3.dropWhile pyIsSpace))))

/-- Scan for the aws-subcommand pattern anywhere in the text: a word boundary
before `aws` (tracked through `prevW`, the word-ness of the previous character),
then `matchAwsAt`. -/
def existsAwsCmd (cmd : List Char) : Bool → List Char → Bool
  | _, [] => false
  | prevW, c :: rest =>
    (!prevW && matchAwsAt cmd (c :: rest)) || existsAwsCmd cmd (isWordChar c) rest

/-- Does one forbidden command match the flag-stripped prompt under any of the
three prompt patterns (aws-subcommand form, start-of-text form,
after-whitespace form)? -/
def promptPatternHit (cmd cleaned : List Char) : Bool :=
  existsAwsCmd cmd false cleaned || matchCmdAt cmd cleaned ||
    existsSpaceThen cmd cleaned

/-- The forbidden-command scan of the prompt validator: the first command of the
table matching the flag-stripped lowered prompt, if any. -/
def findForbidden (cleaned : List Char) : Option (List Char) :=
  FORBIDDEN_AWS_CLI_COMMANDS.find? (fun cmd => promptPatternHit cmd cleaned)

/-- The whole prompt validation: lower the prompt, strip `--flag[ value]`
tokens, scan the forbidden-command table. -/
def validatePromptForbidden (prompt : List Char) : Option (List Char) :=
  findForbidden (stripFlags (asciiLower prompt))

/-!
## `validate_script_safety` (the advisory output check)

Its regexes are sequences of literals, whitespace runs, single whitespace
characters, one negative lookahead and trailing word boundaries; they are
represented as token lists interpreted by a small fuel-bounded matcher with
faithful backtracking over the whitespace runs.
-/

/-- One token of a script-safety pattern. -/
inductive PatTok where
  | lit (w : List Char)
  | wsPlus
  | wsStar
  | wsOne
  | notAhead (w : List Char)
  | boundary
deriving DecidableEq

/-- Match a token sequence at the head of the text.  A whitespace-plus token
consumes one whitespace character and becomes whitespace-star; whitespace-star
tries the continuation at every further split point, which is exactly the set of
matches the backtracking engine explores.  Every recursive call shrinks
text-length plus token-count, so their sum is enough fuel. -/
def matchToksFuel : Nat → List PatTok → List Char → Bool
  | 0, _, _ => false
  | fuel + 1, ts, s =>
    match ts with
    | [] => true
    | .lit w :: ts' => w.isPrefixOf s && matchToksFuel fuel ts' (s.drop w.length)
    | .wsPlus :: ts' =>
      match s with
      | [] => false
      | c :: r => pyIsSpace c && matchToksFuel fuel (.wsStar :: ts') r
    | .wsStar :: ts' =>
      matchToksFuel fuel ts' s ||
        (match s with
         | [] => false
         | c :: r => pyIsSpace c && matchToksFuel fuel (.wsStar :: ts') r)
    | .wsOne :: ts' =>
      match s with
      | [] => false
      | c :: r => pyIsSpace c && matchToksFuel fuel ts' r
    | .notAhead w :: ts' => !(w.isPrefixOf s) && matchToksFuel fuel ts' s
    | .boundary :: ts' =>
      (match s with | [] => true | c :: _ => !isWordChar c) && matchToksFuel fuel ts' s

/-- Match a token sequence at the head of `s` with enough fuel. -/
def matchToks (ts : List PatTok) (s : List Char) : Bool :=
  matchToksFuel (s.length + ts.length + 1) ts s

/-- Search a pattern anywhere in the text.  When the pattern starts with a word
boundary followed by a letter (every such pattern here does), the boundary holds
exactly when the previous character is not a word character, tracked in `prevW`. -/
def searchPat (needsBoundary : Bool) (ts : List PatTok) : Bool → List Char → Bool
  | _, [] => false
  | prevW, c :: rest =>
    ((!needsBoundary || !prevW) && matchToks ts (c :: rest)) ||
      searchPat needsBoundary ts (isWordChar c) rest

/-- Search from the start of the text (start of text is a non-word position). -/
def searchPatText (needsBoundary : Bool) (ts : List PatTok) (s : List Char) : Bool :=
  searchPat needsBoundary ts false s

/-- Zero or more non-whitespace characters then the literal `cmd`
(the middle of the loose aws pattern of `validate_script_safety`). -/
def existsNonspaceThen (cmd : List Char) : List Char → Bool
  | [] => cmd.isPrefixOf []
  | c :: rest =>
    cmd.isPrefixOf (c :: rest) || (!pyIsSpace c && existsNonspaceThen cmd rest)

/-- The loose aws pattern of `validate_script_safety` matched at the head:
`aws`, whitespace, any non-whitespace run, then the literal `cmd`. -/
def matchAwsLooseAt (cmd s : List Char) : Bool :=
  "aws".data.isPrefixOf s &&
    (let r := s.drop 3
     !(r.takeWhile pyIsSpace).isEmpty && existsNonspaceThen cmd (r.dropWhile pyIsSpace))

/-- Scan for the loose aws pattern (word boundary before `aws`). -/
def existsAwsLoose (cmd : List Char) : Bool → List Char → Bool
  | _, [] => false
  | prevW, c :: rest =>
    (!prevW && matchAwsLooseAt cmd (c :: rest)) || existsAwsLoose cmd (isWordChar c) rest

/-- Scan for a literal `cmd` enclosed in word boundaries: `prevW` tracks the
word-ness of the previous character (every forbidden command starts with a letter,
so the left boundary is just a non-word previous position), and `boundaryAfter`
decides the right boundary from `cmd`'s final character. -/
def existsBoundedCmd (cmd : List Char) : Bool → List Char → Bool
  | _, [] => false
  | prevW, c :: rest =>
    (!prevW && matchCmdAt cmd (c :: rest)) || existsBoundedCmd cmd (isWordChar c) rest

/-- Does a forbidden command hit the script text under `validate_script_safety`'s
two patterns (loose aws form, or standalone with word boundaries)? -/
def scriptForbiddenHit (cmd lower : List Char) : Bool :=
  existsAwsLoose cmd false lower || existsBoundedCmd cmd false lower

/-- The dangerous shell-command patterns of `validate_script_safety`, with the
regex source text kept for the error message.  All start with a word boundary.
The uppercase `curl` literals are kept verbatim: the source searches the lowered
text for them, so they can never match — faithful to the code. -/
def dangerousCommands : List (List Char × List PatTok) :=
  [ ("\\brm\\s+".data, [.lit "rm".data, .wsPlus])
  , ("\\bmv\\s+".data, [.lit "mv".data, .wsPlus])
  , ("\\bcp\\s+(?!--dryrun)".data, [.lit "cp".data, .wsPlus, .notAhead "--dryrun".data])
  , ("\\bchmod\\s+\\+x".data, [.lit "chmod".data, .wsPlus, .lit "+x".data])
  , ("\\bsudo\\b".data, [.lit "sudo".data, .boundary])
  , ("\\bcurl\\s+-X\\s+POST".data,
      [.lit "curl".data, .wsPlus, .lit "-X".data, .wsPlus, .lit "POST".data])
  , ("\\bcurl\\s+-X\\s+PUT".data,
      [.lit "curl".data, .wsPlus, .lit "-X".data, .wsPlus, .lit "PUT".data])
  , ("\\bcurl\\s+-X\\s+DELETE".data,
      [.lit "curl".data, .wsPlus, .lit "-X".data, .wsPlus, .lit "DELETE".data])
  , ("\\bcurl\\s+-X\\s+PATCH".data,
      [.lit "curl".data, .wsPlus, .lit "-X".data, .wsPlus, .lit "PATCH".data])
  , ("\\bwget\\s+--post".data, [.lit "wget".data, .wsPlus, .lit "--post".data])
  , ("\\bterraform\\s+apply".data, [.lit "terraform".data, .wsPlus, .lit "apply".data])
  , ("\\bterraform\\s+destroy".data, [.lit "terraform".data, .wsPlus, .lit "destroy".data])
  , ("\\bkubectl\\s+apply".data, [.lit "kubectl".data, .wsPlus, .lit "apply".data])
  , ("\\bkubectl\\s+delete".data, [.lit "kubectl".data, .wsPlus, .lit "delete".data])
  , ("\\bdocker\\s+run\\s+-d".data,
      [.lit "docker".data, .wsPlus, .lit "run".data, .wsPlus, .lit "-d".data]) ]

/-- The write-operation patterns of `validate_script_safety`; the first two do
not start with a word boundary. -/
def writePatterns : List (List Char × Bool × List PatTok) :=
  [ ("\\s>\\s".data, (false, [.wsOne, .lit ">".data, .wsOne]))
  , ("\\s>>".data, (false, [.wsOne, .lit ">>".data]))
  , ("\\btee\\s+".data, (true, [.lit "tee".data, .wsPlus]))
  , ("\\becho\\s+>".data, (true, [.lit "echo".data, .wsPlus, .lit ">".data]))
  , ("\\bprintf\\s+>".data, (true, [.lit "printf".data, .wsPlus, .lit ">".data]))
  , ("\\bcat\\s+>".data, (true, [.lit "cat".data, .wsPlus, .lit ">".data]))
  , ("\\bwrite\\b".data, (true, [.lit "write".data, .boundary]))
  , ("\\bmodify\\b".data, (true, [.lit "modify".data, .boundary])) ]

/-- `validate_script_safety(script_content)`: the advisory read-only check run
against CLI output.  Returns the safe flag and the error message. -/
def validate_script_safety (script : List Char) : Bool × List Char :=
  if script.isEmpty then (true, [])
  else
    let lower := asciiLower script
    match FORBIDDEN_AWS_CLI_COMMANDS.find? (fun cmd => scriptForbiddenHit cmd lower) with
    | some cmd => (false, "Forbidden AWS CLI command detected: ".data ++ cmd)
    | none =>
      match dangerousCommands.find? (fun p => searchPatText true p.2 lower) with
      | some p => (false, "Potentially dangerous command detected: ".data ++ p.1)
      | none =>
        match writePatterns.find? (fun p => searchPatText p.2.1 p.2.2 lower) with
        | some p => (false, "Write operation detected: ".data ++ p.1)
        | none => (true, [])

/-- The script-likeness heuristic of `_run_cli_command`: the output is only
passed to `validate_script_safety` when its lowering contains one of these. -/
def scriptHeuristicPatterns : List (List Char) :=
  [ "#!/".data, "aws ".data, "$ ".data, "bash".data, "sh -c".data ]

/-- Does the output look like an executable script? -/
def scriptHeuristic (stdout : List Char) : Bool :=
  scriptHeuristicPatterns.any (fun p => containsSub p (asciiLower stdout))

/-!
## `_run_cli_command`: argument vector, retry loop, aggregated errors

The subprocess itself is the environment's behaviour: one `AttemptOutcome` per
attempt index, supplied as a function.  `completed` carries the exit code and the
collected stdout/stderr text; `fileNotFound` is the spawn failing with
FileNotFoundError; `timedOut` is the watchdog killing the process, which the
source re-raises as a generic `Exception("Amazon Q CLI command timed out")`.
The stream draining itself (two concurrent line readers) is concurrency and is
not embedded; the attempt outcome carries the joined text it produces.
-/

/-- What one spawn of the external CLI does. -/
inductive AttemptOutcome where
  | completed (returncode : Int) (stdout : List Char) (stderr : List Char)
  | fileNotFound
  | timedOut
deriving DecidableEq

/-- The failure classes an attempt can raise inside the retry loop. -/
inductive CliFailure where
  | calledProcessError (returncode : Int) (stderr : List Char)
  | fileNotFoundError
  | genericError (msg : List Char)
deriving DecidableEq

/-- The errors `_run_cli_command` can raise to its caller. -/
inductive RunError where
  | valueError (msg : List Char)
  | httpError (detail : List Char)
deriving DecidableEq

/-- One attempt: zero exit returns the collected stdout; non-zero exit raises
CalledProcessError whose stderr defaults to "Command failed" when empty
(line 384 of the source); a timeout raises the generic timeout exception. -/
def attemptResult : AttemptOutcome → Except CliFailure (List Char)
  | .completed rc out err =>
    if rc = 0 then .ok out
    else .error (.calledProcessError rc (if err.isEmpty then "Command failed".data else err))
  | .fileNotFound => .error .fileNotFoundError
  | .timedOut => .error (.genericError "Amazon Q CLI command timed out".data)

/-- `FAST_ANALYSIS_INSTRUCTIONS` (module constant, verbatim). -/
def FAST_ANALYSIS_INSTRUCTIONS : List Char :=
  ("\nSPEED PRIORITY: You have a 5-minute time limit. Answer as quickly as possible using your existing AWS knowledge. Provide fast responses even if incomplete data - speed is more important than comprehensive results. Only create scripts as absolute last resort if you cannot provide any useful insights otherwise.").data

/-- `READ_ONLY_SAFETY` (module constant, verbatim). -/
def READ_ONLY_SAFETY : List Char :=
  ("\nCRITICAL READ-ONLY GUARDRAILS:"
    ++ "\n- STRICTLY READ-ONLY MODE: Only perform read, list, describe, and get operations"
    ++ "\n- FORBIDDEN OPERATIONS: No create, update, delete, modify, terminate, stop, start, reboot, or any write operations"
    ++ "\n- ALLOWED AWS CLI COMMANDS: Only describe-*, list-*, get-*, select, query operations"
    ++ "\n- FORBIDDEN AWS CLI COMMANDS: create-*, delete-*, update-*, modify-*, terminate-*, stop-*, start-*, reboot-*, put-*, post-*, patch-*"
    ++ "\n- SCRIPT RESTRICTIONS: Any scripts must only use read-only AWS CLI commands"
    ++ "\n- NO RESOURCE MODIFICATIONS: Do not modify, create, or delete any AWS resources"
    ++ "\n- ANALYSIS ONLY: Provide analysis and recommendations without implementing changes").data

/-- The enhanced prompt actually sent: safety preamble, speed instructions,
a blank line, then the caller's prompt. -/
def enhancedPrompt (prompt : List Char) : List Char :=
  READ_ONLY_SAFETY ++ "\n".data ++ FAST_ANALYSIS_INSTRUCTIONS ++ "\n\n".data ++ prompt

/-- The literal pre-tokenized argument vector handed to the process spawner. -/
def buildCmd (cliPath model prompt : List Char) : List (List Char) :=
  [ cliPath, "chat".data, "--model".data, model
  , "--no-interactive".data, "--trust-all-tools".data, enhancedPrompt prompt ]

/-- Decimal digits of a natural number (for the f-string attempt counts). -/
def natDigitsFuel : Nat → Nat → List Char
  | 0, _ => []
  | fuel + 1, n =>
    if n < 10 then [Char.ofNat (48 + n)]
    else natDigitsFuel fuel (n / 10) ++ [Char.ofNat (48 + n % 10)]

/-- Decimal rendering of a natural number. -/
def natDigits (n : Nat) : List Char := natDigitsFuel (n + 1) n

/-- The aggregated message for a final CalledProcessError. -/
def cpeAggregateMsg (maxRetries : Nat) (errMsg : List Char) : List Char :=
  "Amazon Q CLI error after ".data ++ natDigits maxRetries ++ " attempts: ".data
    ++ errMsg ++ ". Please check AWS credentials and Amazon Q CLI installation.".data

/-- The aggregated message for a final FileNotFoundError. -/
def fnfAggregateMsg (cliPath : List Char) : List Char :=
  "Amazon Q CLI not found at path: ".data ++ cliPath
    ++ ". Please install Amazon Q CLI or update the path configuration.".data

/-- The aggregated message for any other final failure. -/
def genericAggregateMsg (maxRetries : Nat) (msg : List Char) : List Char :=
  "Amazon Q CLI failed after ".data ++ natDigits maxRetries ++ " attempts: ".data
    ++ msg ++ ". Please check your AWS authentication and try again.".data

/-- Aggregation of the last failure after the loop exhausts its retries
(lines 438–458 of the source).  `none` is `last_exception = None`, only
reachable when the loop never ran; `str(None)` is `"None"`. -/
def aggregateError (cliPath : List Char) (maxRetries : Nat) :
    Option CliFailure → List Char
  | some (.calledProcessError _ err) => cpeAggregateMsg maxRetries err
  | some .fileNotFoundError => fnfAggregateMsg cliPath
  | some (.genericError m) => genericAggregateMsg maxRetries m
  | none => genericAggregateMsg maxRetries "None".data

deriving instance DecidableEq for Except

/-- What one call of the retry loop produced: the final outcome (an error carries
the last failure), the backoff delays slept in seconds, the argument vector of
every spawn, and the advisory script-safety verdicts that were evaluated. -/
structure LoopOut where
  result : Except (Option CliFailure) (List Char)
  delays : List Nat
  spawnedCmds : List (List (List Char))
  advisoryVerdicts : List (Bool × List Char)
deriving DecidableEq

/-- The retry loop (`while retry_count < max_retries`), by recursion on the
remaining attempts.  `rc` is the current `retry_count`.  On success the output
is returned unchanged; the script-safety check is evaluated — and merely
recorded — only when the output passes the script heuristic.  On failure with
retries remaining, `2^rc` seconds are slept (`retry_count` has just been
incremented to `rc+1`, and the source sleeps `2**(retry_count-1)`). -/
def runLoop (attempts : Nat → AttemptOutcome) (cmd : List (List Char)) :
    Nat → Nat → Option CliFailure → LoopOut
  | _, 0, last => ⟨.error last, [], [], []⟩
  | rc, remaining + 1, _ =>
    match attemptResult (attempts rc) with
    | .ok out =>
      ⟨.ok out, [], [cmd],
        if scriptHeuristic out then [validate_script_safety out] else []⟩
    | .error f =>
      if remaining = 0 then ⟨.error (some f), [], [cmd], []⟩
      else
        let rest := runLoop attempts cmd (rc + 1) remaining (some f)
        ⟨rest.result, 2 ^ rc :: rest.delays, cmd :: rest.spawnedCmds,
          rest.advisoryVerdicts⟩

/-- `max_retries = max_retries or self.max_retries`: `None` and `0` both fall
back to the service's configured count. -/
def effectiveRetries (arg : Option Nat) (cfgMax : Nat) : Nat :=
  match arg with
  | none => cfgMax
  | some 0 => cfgMax
  | some (n + 1) => n + 1

/-- What one call of `_run_cli_command` produced. -/
structure RunOutcome where
  result : Except RunError (List Char)
  delays : List Nat
  spawnedCmds : List (List (List Char))
  advisoryVerdicts : List (Bool × List Char)
deriving DecidableEq

/-- A `RunOutcome` that failed before any attempt. -/
def rejected (e : RunError) : RunOutcome := ⟨.error e, [], [], []⟩

/-- `_run_cli_command(prompt, model, max_retries)` for a service configured with
`cliPath` and `cfgMaxRetries`: input validation (empty prompt, prompt length,
model length), then the forbidden-command prompt validation on the flag-stripped
lowered prompt, then the CLI-path validation, then the retry loop, whose final
failure is aggregated into one HTTP error.  (`isinstance` checks of the source
are enforced by the types of the embedding.) -/
def run_cli_command (cliPath prompt model : List Char)
    (maxRetriesArg : Option Nat) (cfgMaxRetries : Nat)
    (attempts : Nat → AttemptOutcome) : RunOutcome :=
  if prompt.isEmpty then rejected (.valueError "Prompt must be a non-empty string".data)
  else if 10000 < prompt.length then rejected (.valueError "Prompt too long".data)
  else if 100 < model.length then rejected (.valueError "Invalid model specification".data)
  else
    match validatePromptForbidden prompt with
    | some cmd =>
      rejected (.valueError ("Forbidden operation detected in prompt: ".data ++ cmd))
    | none =>
      if cliPath.isEmpty || 255 < cliPath.length then
        rejected (.valueError "Invalid CLI path configuration".data)
      else
        let maxR := effectiveRetries maxRetriesArg cfgMaxRetries
        let lo := runLoop attempts (buildCmd cliPath model prompt) 0 maxR none
        { result :=
            match lo.result with
            | .ok out => .ok out
            | .error last => .error (.httpError (aggregateError cliPath maxR last))
        , delays := lo.delays
        , spawnedCmds := lo.spawnedCmds
        , advisoryVerdicts := lo.advisoryVerdicts }

/-- The validation hypotheses under which `_run_cli_command` reaches its retry
loop: non-empty prompt within the length limit, a short enough model name, no
forbidden-command hit, and a well-formed CLI path. -/
def ValidInputs (cliPath prompt model : List Char) : Prop :=
  prompt ≠ [] ∧ prompt.length ≤ 10000 ∧ model.length ≤ 100 ∧
    validatePromptForbidden prompt = none ∧ cliPath ≠ [] ∧ cliPath.length ≤ 255

instance (cliPath prompt model : List Char) :
    Decidable (ValidInputs cliPath prompt model) := by
  unfold ValidInputs; infer_instance

/-- Whitespace-delimited tokens of a prompt (used to state what it means for a
forbidden verb to occur as a standalone token). -/
def wsTokens (l : List Char) : List (List Char) :=
  (l.splitOnP pyIsSpace).filter (fun t => !t.isEmpty)

/-- The marker line of the C3 scenario transcript. -/
def c3MarkerLine : List Char :=
  "> I".data ++ aposChar :: "ll help you analyze your AWS costs".data

/-- Roughly 500 characters of analysis text: ten non-blank lines, none a status
artifact. -/
def c3Analysis : List Char :=
  ("Here is a detailed breakdown of your current spend."
    ++ "\nThe largest contributor is compute usage in the account."
    ++ "\nSeveral instances show very low average utilization today."
    ++ "\nRight-sizing the largest two would reduce the monthly bill."
    ++ "\nStorage volumes left unattached keep accruing charges."
    ++ "\nA snapshot and delete of those volumes is recommended."
    ++ "\nOld buckets can be moved to a colder storage class soon."
    ++ "\nLifecycle rules would automate that transition for you."
    ++ "\nThe total estimated saving is a few hundred dollars."
    ++ "\nA prioritized plan with exact figures is listed above.").data

/-- The C3 scenario transcript: ANSI colour codes wrapping the marker line,
then the analysis text. -/
def c3Transcript : List Char :=
  escChar :: "[32m".data ++ c3MarkerLine ++ escChar :: "[0m".data
    ++ nlChar :: c3Analysis

/-- The last failure's stderr as the CalledProcessError carries it: empty stderr
is replaced by "Command failed" at raise time. -/
def lastStderr (errs : Nat → List Char) (maxR : Nat) : List Char :=
  if (errs (maxR - 1)).isEmpty then "Command failed".data else errs (maxR - 1)

/-!
## Helper lemmas
-/

theorem run_cli_command_of_valid (cliPath prompt model : List Char)
    (arg : Option Nat) (cfg : Nat) (attempts : Nat → AttemptOutcome)
    (h : ValidInputs cliPath prompt model) :
    run_cli_command cliPath prompt model arg cfg attempts =
      (let maxR := effectiveRetries arg cfg
       let lo := runLoop attempts (buildCmd cliPath model prompt) 0 maxR none
       { result :=
           match lo.result with
           | .ok out => .ok out
           | .error last => .error (.httpError (aggregateError cliPath maxR last))
       , delays := lo.delays
       , spawnedCmds := lo.spawnedCmds
       , advisoryVerdicts := lo.advisoryVerdicts }) := by
  obtain ⟨h1, h2, h3, h4, h5, h6⟩ := h
  have e1 : prompt.isEmpty = false := by
    cases prompt with
    | nil => exact absurd rfl h1
    | cons c t => rfl
  have e5 : cliPath.isEmpty = false := by
    cases cliPath with
    | nil => exact absurd rfl h5
    | cons c t => rfl
  unfold run_cli_command
  rw [e1, h4, e5]
  simp [Nat.not_lt.mpr h2, Nat.not_lt.mpr h3, Nat.not_lt.mpr h6]

end AmazonQ

namespace AmazonQ

/-- **C2.** For every input transcript, `_parse_cli_output` is a total function
(the embedding is a plain `def`, so it returns on every input and never raises)
and the result carries a response string alongside the transcript unchanged:
its `raw_output` field equals the input character for character. -/
theorem c2_parse_total_raw_preserved (raw : List Char) :
    (parse_cli_output raw).raw_output = raw ∧
      (parse_cli_output raw).response = computeResponse raw :=
  ⟨rfl, rfl⟩

/-- **C9.** Parsing is deterministic and idempotent over its input: the parse
depends only on the input text (the embedding is a pure function of it), so two
parses of the same transcript yield the identical result dictionary, and in
particular the identical response string. -/
theorem c9_parse_deterministic (raw : List Char) :
    parse_cli_output raw = parse_cli_output raw ∧
      (parse_cli_output raw).response = (parse_cli_output raw).response :=
  ⟨rfl, rfl⟩

/-- **C10.** `_run_cli_command` raises `ValueError` before spawning any process
and without retrying whenever the prompt is empty, the prompt exceeds 10000
characters, or the model name exceeds 100 characters: the run ends with the
respective validation error, zero backoff delays and zero spawned processes.
(The `isinstance` halves of the source checks are enforced by the embedding's
types.) -/
theorem c10_input_validation (cliPath prompt model : List Char)
    (arg : Option Nat) (cfg : Nat) (attempts : Nat → AttemptOutcome) :
    (prompt = [] →
      run_cli_command cliPath prompt model arg cfg attempts =
        ⟨.error (.valueError "Prompt must be a non-empty string".data), [], [], []⟩) ∧
    (10000 < prompt.length →
      run_cli_command cliPath prompt model arg cfg attempts =
        ⟨.error (.valueError "Prompt too long".data), [], [], []⟩) ∧
    (prompt ≠ [] → prompt.length ≤ 10000 → 100 < model.length →
      run_cli_command cliPath prompt model arg cfg attempts =
        ⟨.error (.valueError "Invalid model specification".data), [], [], []⟩) := by
  refine ⟨fun h => ?_, fun h => ?_, fun h1 h2 h3 => ?_⟩
  · subst h; rfl
  · have e1 : prompt.isEmpty = false := by
      cases prompt with
      | nil => simp at h
      | cons c t => rfl
    unfold run_cli_command
    rw [e1]
    simp [h, rejected]
  · have e1 : prompt.isEmpty = false := by
      cases prompt with
      | nil => exact absurd rfl h1
      | cons c t => rfl
    unfold run_cli_command
    rw [e1]
    simp [Nat.not_lt.mpr h2, h3, rejected]

theorem runLoop_delays_get (attempts : Nat → AttemptOutcome) (cmd : List (List Char)) :
    ∀ (i rc remaining : Nat) (last : Option CliFailure),
      i + 1 < remaining →
      (∀ j, j ≤ i → ∃ e, attemptResult (attempts (rc + j)) = .error e) →
      (runLoop attempts cmd rc remaining last).delays.get? i = some (2 ^ (rc + i)) := by
  intro i
  induction i with
  | zero =>
    intro rc remaining last hrem hf
    obtain ⟨e, he⟩ := hf 0 (Nat.le_refl 0)
    match remaining, hrem with
    | r + 1, hrem =>
      have hr : r ≠ 0 := by omega
      simp only [runLoop, Nat.add_zero] at he ⊢
      rw [he]
      simp [hr]
  | succ i ih =>
    intro rc remaining last hrem hf
    obtain ⟨e, he⟩ := hf 0 (Nat.zero_le _)
    match remaining, hrem with
    | r + 1, hrem =>
      have hr : r ≠ 0 := by omega
      simp only [runLoop, Nat.add_zero] at he ⊢
      rw [he]
      simp only [hr, if_false, List.get?_cons_succ]
      have := ih (rc + 1) r (some e) (by omega)
        (fun j hj => by
          have := hf (j + 1) (by omega)
          simpa [Nat.add_assoc, Nat.add_comm 1 j] using this)
      simpa [Nat.add_assoc, Nat.add_comm 1 i] using this

/-- **C5.** For every attempt `k` that fails while further attempts remain
(`k` below the effective retry count), the backoff delay slept after it — the
`k`-th entry of the run's delay list — is exactly `2^(k-1)` seconds:
1 second after the first failed attempt, 2 after the second, 4 after the third. -/
theorem c5_backoff_delays (cliPath prompt model : List Char)
    (arg : Option Nat) (cfg : Nat) (attempts : Nat → AttemptOutcome) (k : Nat)
    (hv : ValidInputs cliPath prompt model) (hk1 : 1 ≤ k)
    (hk2 : k < effectiveRetries arg cfg)
    (hf : ∀ j, j < k → ∃ e, attemptResult (attempts j) = .error e) :
    (run_cli_command cliPath prompt model arg cfg attempts).delays.get? (k - 1) =
      some (2 ^ (k - 1)) := by
  rw [run_cli_command_of_valid _ _ _ _ _ _ hv]
  have := runLoop_delays_get attempts (buildCmd cliPath model prompt) (k - 1) 0
    (effectiveRetries arg cfg) none (by omega)
    (fun j hj => by simpa using hf j (by omega))
  simpa using this

/-- Witness for C5: with a valid prompt and every attempt timing out under an
effective retry count of 3, the delay slept after the second failed attempt is
exactly 2 seconds. -/
theorem c5_witness :
    (run_cli_command "q".data "summarize spend".data "claude-3.5-sonnet".data
        (some 3) 3 (fun _ => .timedOut)).delays.get? 1 = some 2 := by
  have := c5_backoff_delays "q".data "summarize spend".data
    "claude-3.5-sonnet".data (some 3) 3 (fun _ => .timedOut) 2
    (by decide) (by omega) (by decide)
    (fun j hj => ⟨.genericError "Amazon Q CLI command timed out".data, rfl⟩)
  simpa using this

theorem runLoop_spawned_eq (attempts : Nat → AttemptOutcome) (cmd : List (List Char)) :
    ∀ (remaining rc : Nat) (last : Option CliFailure),
      ∀ v ∈ (runLoop attempts cmd rc remaining last).spawnedCmds, v = cmd := by
  intro remaining
  induction remaining with
  | zero => intro rc last v hv; simp [runLoop] at hv
  | succ r ih =>
    intro rc last v hv
    simp only [runLoop] at hv
    match h : attemptResult (attempts rc) with
    | .ok out => rw [h] at hv; simpa using hv
    | .error f =>
      rw [h] at hv
      by_cases hr : r = 0
      · simp [hr] at hv; exact hv
      · simp only [hr, if_false, List.mem_cons] at hv
        rcases hv with rfl | hv
        · rfl
        · exact ih (rc + 1) (some f) v hv

/-- **C6.** Every process invocation uses the literal pre-tokenized argument
vector `path, chat, --model, model, --no-interactive, --trust-all-tools,
enhanced prompt` — a list of strings handed to the process spawner (no shell is
involved in the embedding of `asyncio.create_subprocess_exec`): every spawned
argv equals `buildCmd`, which has exactly 7 entries, whose last entry is the
single argument carrying the prompt (the caller's prompt is its suffix, after
the prepended safety preamble). -/
theorem c6_argv_literal (cliPath prompt model : List Char)
    (arg : Option Nat) (cfg : Nat) (attempts : Nat → AttemptOutcome)
    (hv : ValidInputs cliPath prompt model) :
    (∀ v ∈ (run_cli_command cliPath prompt model arg cfg attempts).spawnedCmds,
        v = buildCmd cliPath model prompt) ∧
    buildCmd cliPath model prompt =
      [ cliPath, "chat".data, "--model".data, model
      , "--no-interactive".data, "--trust-all-tools".data, enhancedPrompt prompt ] ∧
    (buildCmd cliPath model prompt).length = 7 ∧
    (buildCmd cliPath model prompt).getLast? = some (enhancedPrompt prompt) ∧
    prompt <:+ enhancedPrompt prompt := by
  refine ⟨?_, rfl, rfl, rfl,
    ⟨READ_ONLY_SAFETY ++ "\n".data ++ FAST_ANALYSIS_INSTRUCTIONS ++ "\n\n".data,
      by simp [enhancedPrompt, List.append_assoc]⟩⟩
  rw [run_cli_command_of_valid _ _ _ _ _ _ hv]
  exact fun v hv' => runLoop_spawned_eq attempts _ _ 0 none v hv'

/-- Witness for C6: a concrete successful run spawns exactly the literal
7-element argv, with the enhanced prompt as its last argument and the caller's
prompt as that argument's suffix. -/
theorem c6_witness :
    ((run_cli_command "q".data "hello there".data "claude-3.5-sonnet".data
        (some 1) 3 (fun _ => .completed 0 "done".data [])).spawnedCmds.headD []
      = buildCmd "q".data "claude-3.5-sonnet".data "hello there".data) ∧
    (buildCmd "q".data "claude-3.5-sonnet".data "hello there".data).length = 7 ∧
    "hello there".data <:+ enhancedPrompt "hello there".data := by
  have h := c6_argv_literal "q".data "hello there".data "claude-3.5-sonnet".data
    (some 1) 3 (fun _ => .completed 0 "done".data []) (by decide)
  refine ⟨h.1 _ ?_, h.2.2.1, h.2.2.2.2⟩
  rw [run_cli_command_of_valid _ _ _ _ _ _ (by decide)]
  simp [runLoop, attemptResult]

theorem isPrefixOf_append_self (b c : List Char) : b.isPrefixOf (b ++ c) = true := by
  induction b with
  | nil => simp [List.isPrefixOf]
  | cons x b ih => simp [List.isPrefixOf, ih]

theorem containsSub_append_middle (a b c : List Char) (hb : b ≠ []) :
    containsSub b (a ++ b ++ c) = true := by
  induction a with
  | nil =>
    match b, hb with
    | x :: b', _ =>
      simp only [List.nil_append, containsSub, List.cons_append, List.append_eq]
      rw [show x :: (b' ++ c) = (x :: b') ++ c from rfl,
        isPrefixOf_append_self (x :: b') c]
      simp
  | cons x a ih =>
    simp only [List.cons_append, containsSub, List.append_eq]
    simp only [List.append_eq] at ih
    rw [ih]
    simp

theorem natDigitsFuel_ne_nil (fuel n : Nat) : natDigitsFuel (fuel + 1) n ≠ [] := by
  unfold natDigitsFuel
  by_cases h : n < 10 <;> simp [h]

theorem natDigits_ne_nil (n : Nat) : natDigits n ≠ [] := natDigitsFuel_ne_nil n n

theorem runLoop_all_fail (attempts : Nat → AttemptOutcome) (cmd : List (List Char))
    (f : Nat → CliFailure)
    (hf : ∀ j, attemptResult (attempts j) = .error (f j)) :
    ∀ (remaining rc : Nat) (last : Option CliFailure), 0 < remaining →
      (runLoop attempts cmd rc remaining last).result =
        .error (some (f (rc + remaining - 1))) := by
  intro remaining
  induction remaining with
  | zero => intro rc last h; omega
  | succ r ih =>
    intro rc last _
    simp only [runLoop]
    rw [hf rc]
    by_cases hr : r = 0
    · subst hr; simp
    · simp only [hr, if_false]
      rw [ih (rc + 1) (some (f rc)) (by omega)]
      have harith : rc + 1 + r - 1 = rc + (r + 1) - 1 := by omega
      rw [harith]

/-- **C4 (counterexample).** Every attempt exits non-zero with stderr
"command not found" and `max_retries = 3` is exhausted; the aggregated error
message contains the attempt count and the stderr detail but — contrary to the
claim — does NOT contain the configured executable path. -/
theorem c4_counterexample :
    (run_cli_command "/opt/amazonq/bin/q".data "summarize spend".data
        "claude-3.5-sonnet".data (some 3) 3
        (fun _ => .completed 127 [] "command not found".data)).result =
      .error (.httpError (cpeAggregateMsg 3 "command not found".data)) ∧
    containsSub "3 attempts".data (cpeAggregateMsg 3 "command not found".data) = true ∧
    containsSub "command not found".data
      (cpeAggregateMsg 3 "command not found".data) = true ∧
    containsSub "/opt/amazonq/bin/q".data
      (cpeAggregateMsg 3 "command not found".data) = false := by
  refine ⟨?_, by decide, by decide, by decide⟩
  decide

/-- **C4 (amended).** When every attempt fails and the retries are exhausted,
`_run_cli_command` raises a single aggregated error.  For non-zero exits the
message embeds the attempt count and the last failure's stderr detail, but not
the executable path; the configured executable path appears only in the
aggregation of the executable-not-found failure class. -/
theorem c4_aggregate_error_amended (cliPath prompt model : List Char)
    (arg : Option Nat) (cfg : Nat) (rcs : Nat → Int) (outs errs : Nat → List Char)
    (hv : ValidInputs cliPath prompt model) (hmax : 0 < effectiveRetries arg cfg) :
    ((∀ j, rcs j ≠ 0) →
      (run_cli_command cliPath prompt model arg cfg
          (fun j => .completed (rcs j) (outs j) (errs j))).result =
        .error (.httpError (cpeAggregateMsg (effectiveRetries arg cfg)
          (lastStderr errs (effectiveRetries arg cfg)))) ∧
      containsSub (natDigits (effectiveRetries arg cfg))
        (cpeAggregateMsg (effectiveRetries arg cfg)
          (lastStderr errs (effectiveRetries arg cfg))) = true ∧
      containsSub (lastStderr errs (effectiveRetries arg cfg))
        (cpeAggregateMsg (effectiveRetries arg cfg)
          (lastStderr errs (effectiveRetries arg cfg))) = true) ∧
    ((run_cli_command cliPath prompt model arg cfg (fun _ => .fileNotFound)).result =
        .error (.httpError (fnfAggregateMsg cliPath)) ∧
      containsSub cliPath (fnfAggregateMsg cliPath) = true) := by
  constructor
  · intro hrc
    have hres : (run_cli_command cliPath prompt model arg cfg
        (fun j => .completed (rcs j) (outs j) (errs j))).result =
        .error (.httpError (cpeAggregateMsg (effectiveRetries arg cfg)
          (lastStderr errs (effectiveRetries arg cfg)))) := by
      rw [run_cli_command_of_valid _ _ _ _ _ _ hv]
      have hall := runLoop_all_fail
        (fun j => .completed (rcs j) (outs j) (errs j))
        (buildCmd cliPath model prompt)
        (fun j => .calledProcessError (rcs j)
          (if (errs j).isEmpty then "Command failed".data else errs j))
        (fun j => by simp [attemptResult, hrc j])
        (effectiveRetries arg cfg) 0 none hmax
      simp only [Nat.zero_add] at hall
      simp only [hall, aggregateError, lastStderr]
    refine ⟨hres, ?_, ?_⟩
    · have := containsSub_append_middle "Amazon Q CLI error after ".data
        (natDigits (effectiveRetries arg cfg))
        (" attempts: ".data ++ lastStderr errs (effectiveRetries arg cfg) ++
          ". Please check AWS credentials and Amazon Q CLI installation.".data)
        (natDigits_ne_nil _)
      simpa [cpeAggregateMsg, List.append_assoc] using this
    · have hne : lastStderr errs (effectiveRetries arg cfg) ≠ [] := by
        unfold lastStderr
        by_cases h : (errs (effectiveRetries arg cfg - 1)).isEmpty
        · simp [h]
        · simp only [h, if_false]
          cases herr : errs (effectiveRetries arg cfg - 1) with
          | nil => rw [herr] at h; simp at h
          | cons x t => simp
      have := containsSub_append_middle
        ("Amazon Q CLI error after ".data ++ natDigits (effectiveRetries arg cfg) ++
          " attempts: ".data)
        (lastStderr errs (effectiveRetries arg cfg))
        ". Please check AWS credentials and Amazon Q CLI installation.".data hne
      simpa [cpeAggregateMsg, List.append_assoc] using this
  · have hres : (run_cli_command cliPath prompt model arg cfg
        (fun _ => .fileNotFound)).result =
        .error (.httpError (fnfAggregateMsg cliPath)) := by
      rw [run_cli_command_of_valid _ _ _ _ _ _ hv]
      have hall := runLoop_all_fail (fun _ => .fileNotFound)
        (buildCmd cliPath model prompt) (fun _ => .fileNotFoundError)
        (fun j => rfl) (effectiveRetries arg cfg) 0 none hmax
      simp only [hall, aggregateError]
    refine ⟨hres, ?_⟩
    have := containsSub_append_middle "Amazon Q CLI not found at path: ".data cliPath
      ". Please install Amazon Q CLI or update the path configuration.".data hv.2.2.2.2.1
    simpa [fnfAggregateMsg, List.append_assoc] using this

/-- Witness for C4 (amended): a concrete run whose three attempts all exit with
code 2 and stderr "boom" aggregates into the CalledProcessError message, and a
concrete run whose attempts all fail to spawn aggregates into the not-found
message carrying the path. -/
theorem c4_witness :
    (run_cli_command "/usr/local/bin/q".data "summarize spend".data
        "claude-3.5-sonnet".data (some 3) 3
        (fun _ => .completed 2 [] "boom".data)).result =
      .error (.httpError (cpeAggregateMsg 3 (lastStderr (fun _ => "boom".data) 3))) ∧
    (run_cli_command "/usr/local/bin/q".data "summarize spend".data
        "claude-3.5-sonnet".data (some 3) 3 (fun _ => .fileNotFound)).result =
      .error (.httpError (fnfAggregateMsg "/usr/local/bin/q".data)) ∧
    containsSub "/usr/local/bin/q".data
      (fnfAggregateMsg "/usr/local/bin/q".data) = true := by
  have h := c4_aggregate_error_amended "/usr/local/bin/q".data
    "summarize spend".data "claude-3.5-sonnet".data (some 3) 3
    (fun _ => 2) (fun _ => []) (fun _ => "boom".data) (by decide) (by decide)
  exact ⟨(h.1 (fun j => by show (2 : Int) ≠ 0; decide)).1, h.2.1, h.2.2⟩

theorem runLoop_success (attempts : Nat → AttemptOutcome) (cmd : List (List Char)) :
    ∀ (i rc remaining : Nat) (last : Option CliFailure) (out : List Char),
      i < remaining →
      (∀ j, j < i → ∃ e, attemptResult (attempts (rc + j)) = .error e) →
      attemptResult (attempts (rc + i)) = .ok out →
      (runLoop attempts cmd rc remaining last).result = .ok out ∧
        (runLoop attempts cmd rc remaining last).advisoryVerdicts =
          (if scriptHeuristic out then [validate_script_safety out] else []) := by
  intro i
  induction i with
  | zero =>
    intro rc remaining last out hrem _ hok
    match remaining, hrem with
    | r + 1, _ =>
      simp only [Nat.add_zero] at hok
      simp only [runLoop]
      rw [hok]
      exact ⟨rfl, rfl⟩
  | succ i ih =>
    intro rc remaining last out hrem hprev hok
    match remaining, hrem with
    | r + 1, hrem =>
      obtain ⟨e, he⟩ := hprev 0 (by omega)
      simp only [Nat.add_zero] at he
      have hr : r ≠ 0 := by omega
      simp only [runLoop]
      rw [he]
      simp only [hr, if_false]
      have := ih (rc + 1) r (some e) out (by omega)
        (fun j hj => by
          have := hprev (j + 1) (by omega)
          simpa [Nat.add_assoc, Nat.add_comm 1 j] using this)
        (by simpa [Nat.add_assoc, Nat.add_comm 1 i] using hok)
      exact this

/-- **C8.** Output validation never blocks a response: when an attempt succeeds,
`_run_cli_command` returns the collected transcript unchanged, whatever the
script-safety verdict on it may be — the verdict is merely recorded (logged) —
and the script-safety check is evaluated at all exactly when the output passes
the script-likeness heuristic (shebang, shell prompt marker, or command
invocation token). -/
theorem c8_output_advisory (cliPath prompt model : List Char)
    (arg : Option Nat) (cfg : Nat) (attempts : Nat → AttemptOutcome)
    (i : Nat) (out err : List Char)
    (hv : ValidInputs cliPath prompt model) (hi : i < effectiveRetries arg cfg)
    (hprev : ∀ j, j < i → ∃ e, attemptResult (attempts j) = .error e)
    (hsucc : attempts i = .completed 0 out err) :
    (run_cli_command cliPath prompt model arg cfg attempts).result = .ok out ∧
    (run_cli_command cliPath prompt model arg cfg attempts).advisoryVerdicts =
      (if scriptHeuristic out then [validate_script_safety out] else []) ∧
    ((run_cli_command cliPath prompt model arg cfg attempts).advisoryVerdicts ≠ []
      ↔ scriptHeuristic out = true) := by
  rw [run_cli_command_of_valid _ _ _ _ _ _ hv]
  have h := runLoop_success attempts (buildCmd cliPath model prompt) i 0
    (effectiveRetries arg cfg) none out hi
    (fun j hj => by simpa using hprev j hj)
    (by simp [attemptResult, hsucc])
  refine ⟨by simp only [h.1], by simpa using h.2, ?_⟩
  simp only [h.2]
  by_cases hh : scriptHeuristic out <;> simp [hh]

/-- Witness for C8: a concrete successful attempt whose output both looks like a
script and draws an unsafe verdict is still returned unchanged. -/
theorem c8_witness :
    scriptHeuristic "$ aws s3 rm s3://bucket/data".data = true ∧
    (validate_script_safety "$ aws s3 rm s3://bucket/data".data).1 = false ∧
    (run_cli_command "q".data "summarize spend".data "claude-3.5-sonnet".data
        (some 3) 3
        (fun _ => .completed 0 "$ aws s3 rm s3://bucket/data".data [])).result =
      .ok "$ aws s3 rm s3://bucket/data".data := by
  refine ⟨by decide, by decide, ?_⟩
  exact (c8_output_advisory "q".data "summarize spend".data
    "claude-3.5-sonnet".data (some 3) 3 _ 0 _ [] (by decide) (by decide)
    (fun j hj => absurd hj (by omega)) rfl).1

/-- **C1 (counterexample).** The prompt "analyze the logs --action rm now"
contains the forbidden verb `rm` as a standalone whitespace-delimited token, yet
prompt validation passes and the call spawns the process and returns its output:
the flag-stripping regex consumes `rm` as the value of the preceding `--action`
flag before the word-boundary patterns are matched. -/
theorem c1_counterexample :
    "rm".data ∈ FORBIDDEN_AWS_CLI_COMMANDS ∧
    "rm".data ∈ wsTokens "analyze the logs --action rm now".data ∧
    validatePromptForbidden "analyze the logs --action rm now".data = none ∧
    (run_cli_command "q".data "analyze the logs --action rm now".data
        "claude-3.5-sonnet".data (some 1) 3
        (fun _ => .completed 0 "ok".data [])).result = .ok "ok".data := by
  refine ⟨by decide, by decide, by decide, ?_⟩
  decide

/-- **C1 (amended).** For every prompt that still contains a forbidden verb at
the start of the flag-stripped lowered text or right after a whitespace
character, followed by a word boundary — i.e. as a standalone token that was not
consumed by the `--flag[ value]` stripping — and that passes the preceding
length check, validation rejects the call with a non-retryable `ValueError`
naming a forbidden verb, before any process is spawned (the run is `rejected`:
no spawn, no delay).  And the representative prompt whose only occurrences of
forbidden-verb text (`start-`, `end-`) lie inside `--flag` tokens passes,
because all `--flag[ value]` tokens are stripped before matching. -/
theorem c1_flag_stripping_amended :
    (∀ (p cmd : List Char), cmd ∈ FORBIDDEN_AWS_CLI_COMMANDS →
      p ≠ [] → p.length ≤ 10000 →
      (matchCmdAt cmd (stripFlags (asciiLower p)) ||
        existsSpaceThen cmd (stripFlags (asciiLower p))) = true →
      ∃ c', c' ∈ FORBIDDEN_AWS_CLI_COMMANDS ∧
        validatePromptForbidden p = some c' ∧
        ∀ (cliPath model : List Char) (arg : Option Nat) (cfg : Nat)
          (attempts : Nat → AttemptOutcome), model.length ≤ 100 →
          run_cli_command cliPath p model arg cfg attempts =
            rejected (.valueError
              ("Forbidden operation detected in prompt: ".data ++ c'))) ∧
    validatePromptForbidden
      "get cloudwatch metrics --start-time 2024-01-01 --end-time 2024-02-01".data
        = none ∧
    (run_cli_command "q".data
        "get cloudwatch metrics --start-time 2024-01-01 --end-time 2024-02-01".data
        "claude-3.5-sonnet".data (some 1) 3
        (fun _ => .completed 0 "metrics".data [])).result = .ok "metrics".data := by
  refine ⟨?_, by decide, by decide⟩
  intro p cmd hmem hne hlen hpat
  have hhit : promptPatternHit cmd (stripFlags (asciiLower p)) = true := by
    unfold promptPatternHit
    rcases Bool.or_eq_true_iff.mp hpat with h | h <;> simp [h]
  have hsome : (FORBIDDEN_AWS_CLI_COMMANDS.find?
      (fun c => promptPatternHit c (stripFlags (asciiLower p)))).isSome := by
    rw [List.find?_isSome]
    exact ⟨cmd, hmem, hhit⟩
  obtain ⟨c', hc'⟩ := Option.isSome_iff_exists.mp hsome
  refine ⟨c', List.mem_of_find?_eq_some hc', hc', ?_⟩
  intro cliPath model arg cfg attempts hmodel
  have e1 : p.isEmpty = false := by
    cases p with
    | nil => exact absurd rfl hne
    | cons c t => rfl
  unfold run_cli_command
  rw [e1]
  simp only [Nat.not_lt.mpr hlen, if_false, Nat.not_lt.mpr hmodel]
  rw [show validatePromptForbidden p = some c' from hc']
  simp

/-- Witness for C1 (amended): the prompt "please rm the files" has the forbidden
verb after whitespace in its flag-stripped text, so validation rejects the run
with the forbidden-operation ValueError before any spawn. -/
theorem c1_witness :
    ∃ c', c' ∈ FORBIDDEN_AWS_CLI_COMMANDS ∧
      validatePromptForbidden "please rm the files".data = some c' ∧
      run_cli_command "q".data "please rm the files".data "claude-3.5-sonnet".data
          (some 3) 3 (fun _ => .timedOut) =
        rejected (.valueError
          ("Forbidden operation detected in prompt: ".data ++ c')) := by
  obtain ⟨c', h1, h2, h3⟩ := c1_flag_stripping_amended.1
    "please rm the files".data "rm".data (by decide) (by decide) (by decide)
    (by decide)
  exact ⟨c', h1, h2,
    h3 "q".data "claude-3.5-sonnet".data (some 3) 3 (fun _ => .timedOut) (by decide)⟩

set_option maxRecDepth 1000000 in
/-- **C3 (counterexample).** On the scenario transcript — ANSI codes wrapping
the opener line followed by roughly 500 characters of analysis — the returned
response STARTS with the marker line: the primary pass appends the very line on
which it switched into the response section, so the marker line is not excluded,
contrary to the claim. -/
theorem c3_counterexample :
    c3MarkerLine <+: (parse_cli_output c3Transcript).response ∧
    markerIn c3MarkerLine = true ∧
    (splitLinesNL (parse_cli_output c3Transcript).response).headD []
      = c3MarkerLine := by
  refine ⟨⟨nlChar :: c3Analysis, ?_⟩, by decide, ?_⟩ <;> decide

set_option maxRecDepth 1000000 in
/-- **C3 (amended).** The scenario transcript (ANSI codes wrapping the opener
line, then roughly 500 characters of analysis) parses to a non-empty response of
length comparable to the analysis text — at least the analysis itself — with the
ANSI codes removed; the marker line is included as the first line of the
response rather than excluded. -/
theorem c3_marker_scenario_amended :
    (parse_cli_output c3Transcript).response = c3MarkerLine ++ nlChar :: c3Analysis ∧
    c3Analysis.length ≤ (parse_cli_output c3Transcript).response.length ∧
    500 ≤ (parse_cli_output c3Transcript).response.length ∧
    (parse_cli_output c3Transcript).response ≠ [] := by
  refine ⟨by decide, by decide, by decide, by decide⟩

theorem responseLines_no_marker : ∀ (lines : List (List Char)),
    (∀ l ∈ lines, markerIn l = false) → responseLines lines false = [] := by
  intro lines
  induction lines with
  | nil => intro _; rfl
  | cons line rest ih =>
    intro h
    have hm : markerIn line = false := h line (by simp)
    have hr := ih (fun l hl => h l (by simp [hl]))
    by_cases he : (pyStrip line).isEmpty <;> simp [responseLines, hm, he, hr]

theorem firstMeaningfulSuffix_none : ∀ (lines : List (List Char)),
    (∀ l ∈ lines, fallbackKeywords.any (fun w => containsSub w (asciiLower l)) = false) →
    firstMeaningfulSuffix lines = none := by
  intro lines
  induction lines with
  | nil => intro _; rfl
  | cons line rest ih =>
    intro h
    have hm : meaningfulLine line = false := by
      unfold meaningfulLine
      rw [h line (by simp)]
      rfl
    simp [firstMeaningfulSuffix, hm, ih (fun l hl => h l (by simp [hl]))]

theorem computeResponse_fallback2 (raw : List Char)
    (hm : ∀ l ∈ splitLinesNL (stripAnsi raw), markerIn l = false)
    (hk : ∀ l ∈ splitLinesNL (stripAnsi raw),
      fallbackKeywords.any (fun w => containsSub w (asciiLower l)) = false) :
    computeResponse raw =
      pyStrip (collapseNewlines (removeArtifacts (stripAnsi raw))) := by
  unfold computeResponse
  simp only [responseLines_no_marker _ hm, firstMeaningfulSuffix_none _ hk]
  rfl

theorem drop_takeWhile_length (p : Char → Bool) (l : List Char) :
    l.drop (l.takeWhile p).length = l.dropWhile p := by
  induction l with
  | nil => rfl
  | cons c rest ih =>
    by_cases h : p c <;>
      simp [List.takeWhile_cons, List.dropWhile_cons, h, ih]

theorem mem_afterLastNewline {x : Char} {run : List Char}
    (h : x ∈ afterLastNewline run) : x ∈ run := by
  unfold afterLastNewline at h
  rw [List.mem_reverse] at h
  have := (List.takeWhile_sublist (fun c => !(c = nlChar) : Char → Bool)).mem h
  rwa [List.mem_reverse] at this

theorem filter_nonspace_skipRun (rest : List Char) :
    (afterLastNewline (rest.takeWhile pyIsSpace)
        ++ rest.drop (rest.takeWhile pyIsSpace).length).filter (fun c => !pyIsSpace c)
      = rest.filter (fun c => !pyIsSpace c) := by
  rw [List.filter_append, drop_takeWhile_length]
  have h1 : (afterLastNewline (rest.takeWhile pyIsSpace)).filter
      (fun c => !pyIsSpace c) = [] := by
    rw [List.filter_eq_nil_iff]
    intro a ha
    have := List.mem_takeWhile_imp (mem_afterLastNewline ha)
    simp [this]
  have h2 : (rest.takeWhile pyIsSpace).filter (fun c => !pyIsSpace c) = [] := by
    rw [List.filter_eq_nil_iff]
    intro a ha
    have := List.mem_takeWhile_imp ha
    simp [this]
  rw [h1, List.nil_append]
  conv_rhs => rw [← List.takeWhile_append_dropWhile pyIsSpace rest]
  rw [List.filter_append, h2, List.nil_append]

theorem filter_nonspace_collapseFuel : ∀ (fuel : Nat) (l : List Char),
    (collapseFuel fuel l).filter (fun c => !pyIsSpace c)
      = l.filter (fun c => !pyIsSpace c) := by
  intro fuel
  induction fuel with
  | zero => intro l; cases l <;> rfl
  | succ fuel ih =>
    intro l
    match l with
    | [] => rfl
    | c :: rest =>
      simp only [collapseFuel]
      by_cases hc : c = nlChar
      · subst hc
        have hnl : (!pyIsSpace nlChar) = false := by decide
        by_cases hcnt : 2 ≤ countNewlines (rest.takeWhile pyIsSpace)
        · rw [if_pos rfl, if_pos hcnt]
          simp only [List.filter_cons, hnl, if_false, Bool.false_eq_true, ih]
          exact filter_nonspace_skipRun rest
        · rw [if_pos rfl, if_neg hcnt]
          simp only [List.filter_cons, hnl, if_false, Bool.false_eq_true, ih]
      · rw [if_neg hc]
        simp only [List.filter_cons, ih]

theorem pyStrip_ne_nil_of_nonspace {l : List Char} {x : Char}
    (hx : x ∈ l) (hs : pyIsSpace x = false) : pyStrip l ≠ [] := by
  intro h
  unfold pyStrip at h
  rw [List.reverse_eq_nil_iff, List.dropWhile_eq_nil_iff] at h
  have hx' : x ∈ l.dropWhile pyIsSpace := by
    rcases (List.mem_append.mp
      (by rw [List.takeWhile_append_dropWhile pyIsSpace l]; exact hx :
        x ∈ l.takeWhile pyIsSpace ++ l.dropWhile pyIsSpace)) with h1 | h2
    · exact absurd (List.mem_takeWhile_imp h1) (by simp [hs])
    · exact h2
  have := h x (List.mem_reverse.mpr hx')
  rw [hs] at this
  exact Bool.false_ne_true this

/-- **C7 (amended).** For every transcript with no response-opening marker line
and no domain-keyword line, `_parse_cli_output` falls through to the final tier:
it returns the full ANSI-stripped transcript with the known status-line
artifacts removed, runs of blank lines collapsed, and edges stripped; and the
result is non-empty whenever the artifact-stripped text contains at least one
non-whitespace character.  (Not for every large transcript: a whitespace-only
one yields the empty string — the counterexample.) -/
theorem c7_fallback_amended (raw : List Char)
    (hm : ∀ l ∈ splitLinesNL (stripAnsi raw), markerIn l = false)
    (hk : ∀ l ∈ splitLinesNL (stripAnsi raw),
      fallbackKeywords.any (fun w => containsSub w (asciiLower l)) = false) :
    (parse_cli_output raw).response =
      pyStrip (collapseNewlines (removeArtifacts (stripAnsi raw))) ∧
    ((∃ c ∈ removeArtifacts (stripAnsi raw), pyIsSpace c = false) →
      (parse_cli_output raw).response ≠ []) := by
  have hresp : (parse_cli_output raw).response =
      pyStrip (collapseNewlines (removeArtifacts (stripAnsi raw))) :=
    computeResponse_fallback2 raw hm hk
  refine ⟨hresp, ?_⟩
  rintro ⟨c, hc, hcs⟩
  rw [hresp]
  have hmemf : c ∈ (removeArtifacts (stripAnsi raw)).filter (fun c => !pyIsSpace c) :=
    List.mem_filter.mpr ⟨hc, by simp [hcs]⟩
  rw [← filter_nonspace_collapseFuel (removeArtifacts (stripAnsi raw)).length] at hmemf
  have hmem : c ∈ collapseNewlines (removeArtifacts (stripAnsi raw)) :=
    (List.mem_filter.mp hmemf).1
  exact pyStrip_ne_nil_of_nonspace hmem hcs

theorem stripAnsi_replicate_space (n : Nat) :
    stripAnsi (List.replicate n ' ') = List.replicate n ' ' := by
  show stripAnsiGo .normal (List.replicate n ' ') = List.replicate n ' '
  induction n with
  | zero => rfl
  | succ n ih =>
    rw [List.replicate_succ]
    simp only [stripAnsiGo, show (' ' = escChar) = False by simp [escChar]]
    simp [ih]

theorem splitLinesNL_replicate_space (n : Nat) :
    splitLinesNL (List.replicate n ' ') = [List.replicate n ' '] := by
  induction n with
  | zero => rfl
  | succ n ih =>
    rw [List.replicate_succ]
    simp only [splitLinesNL, show (' ' = nlChar) = False by simp [nlChar]]
    simp [ih]

theorem containsSub_cons_replicate_space (c : Char) (w : List Char) (n : Nat)
    (hc : c ≠ ' ') : containsSub (c :: w) (List.replicate n ' ') = false := by
  induction n with
  | zero => rfl
  | succ n ih =>
    rw [List.replicate_succ]
    simp only [containsSub, List.isPrefixOf]
    rw [show (c == ' ') = false from beq_eq_false_iff_ne.mpr hc]
    simpa using ih

theorem patterns_not_in_replicate_space (pats : List (List Char))
    (h : ∀ p ∈ pats, p.headD ' ' ≠ ' ') (n : Nat) :
    pats.any (fun p => containsSub p (List.replicate n ' ')) = false := by
  rw [List.any_eq_false]
  intro p hp
  have := h p hp
  match p, this with
  | c :: w, hcw =>
    simp only [List.headD_cons] at hcw
    simp [containsSub_cons_replicate_space c w n hcw]

theorem removeAllFuel_replicate_space (c : Char) (w : List Char) (hc : c ≠ ' ') :
    ∀ (fuel n : Nat),
      removeAllFuel (c :: w) fuel (List.replicate n ' ') = List.replicate n ' ' := by
  intro fuel
  induction fuel with
  | zero => intro n; cases n <;> rfl
  | succ fuel ih =>
    intro n
    match n with
    | 0 => rfl
    | n + 1 =>
      rw [List.replicate_succ]
      simp only [removeAllFuel, List.isPrefixOf,
        show (c == ' ') = false from beq_eq_false_iff_ne.mpr hc,
        Bool.false_and, Bool.false_eq_true, if_false]
      rw [ih n, ← List.replicate_succ]

theorem removeArtifacts_replicate_space (n : Nat) :
    removeArtifacts (List.replicate n ' ') = List.replicate n ' ' := by
  simp only [removeArtifacts, artifactPatterns, List.foldl_cons, List.foldl_nil]
  rw [show removeAll "Command exited with code".data (List.replicate n ' ')
      = List.replicate n ' ' from
    removeAllFuel_replicate_space _ _ (by decide) _ _]
  rw [show removeAll "Execution finished in".data (List.replicate n ' ')
      = List.replicate n ' ' from
    removeAllFuel_replicate_space _ _ (by decide) _ _]
  rw [show removeAll "Exit code:".data (List.replicate n ' ')
      = List.replicate n ' ' from
    removeAllFuel_replicate_space _ _ (by decide) _ _]
  exact removeAllFuel_replicate_space _ _ (by decide) _ _

theorem collapseFuel_replicate_space : ∀ (fuel n : Nat),
    collapseFuel fuel (List.replicate n ' ') = List.replicate n ' ' := by
  intro fuel
  induction fuel with
  | zero => intro n; cases n <;> rfl
  | succ fuel ih =>
    intro n
    match n with
    | 0 => rfl
    | n + 1 =>
      rw [List.replicate_succ]
      simp only [collapseFuel, show (' ' = nlChar) = False by simp [nlChar]]
      simp only [if_false]
      rw [ih n, ← List.replicate_succ]

theorem dropWhile_space_replicate (n : Nat) :
    (List.replicate n ' ').dropWhile pyIsSpace = [] := by
  induction n with
  | zero => rfl
  | succ n ih =>
    rw [List.replicate_succ]
    simp [List.dropWhile_cons, show pyIsSpace ' ' = true by decide, ih]

theorem collapseNewlines_replicate_space (n : Nat) :
    collapseNewlines (List.replicate n ' ') = List.replicate n ' ' := by
  unfold collapseNewlines
  exact collapseFuel_replicate_space _ _

theorem parse_response_eq (raw : List Char) :
    (parse_cli_output raw).response = computeResponse raw := rfl

theorem pyStrip_replicate_space (n : Nat) :
    pyStrip (List.replicate n ' ') = [] := by
  unfold pyStrip
  rw [dropWhile_space_replicate]
  rfl

set_option maxRecDepth 1000000 in
/-- **C7 (counterexample).** A 25 KB transcript consisting only of spaces has no
marker line and no domain-keyword line, yet `_parse_cli_output` returns the
EMPTY string for it: the final fallback's `.strip()` removes everything — the
claimed "never an empty one" fails. -/
theorem c7_counterexample :
    (List.replicate 25600 ' ').length = 25600 ∧
    (∀ l ∈ splitLinesNL (stripAnsi (List.replicate 25600 ' ')),
      markerIn l = false) ∧
    (∀ l ∈ splitLinesNL (stripAnsi (List.replicate 25600 ' ')),
      fallbackKeywords.any (fun w => containsSub w (asciiLower l)) = false) ∧
    (parse_cli_output (List.replicate 25600 ' ')).response = [] := by
  have hsplit : splitLinesNL (stripAnsi (List.replicate 25600 ' '))
      = [List.replicate 25600 ' '] := by
    rw [stripAnsi_replicate_space, splitLinesNL_replicate_space]
  have hlower : asciiLower (List.replicate 25600 ' ') = List.replicate 25600 ' ' := by
    unfold asciiLower
    rw [List.map_replicate, show asciiLowerChar ' ' = ' ' from by decide]
  have hm : ∀ l ∈ splitLinesNL (stripAnsi (List.replicate 25600 ' ')),
      markerIn l = false := by
    rw [hsplit]
    intro l hl
    rw [List.mem_singleton] at hl
    subst hl
    exact patterns_not_in_replicate_space responseMarkers (by decide) 25600
  have hk : ∀ l ∈ splitLinesNL (stripAnsi (List.replicate 25600 ' ')),
      fallbackKeywords.any (fun w => containsSub w (asciiLower l)) = false := by
    rw [hsplit]
    intro l hl
    rw [List.mem_singleton] at hl
    subst hl
    rw [hlower]
    exact patterns_not_in_replicate_space fallbackKeywords (by decide) 25600
  refine ⟨by rw [List.length_replicate], hm, hk, ?_⟩
  rw [parse_response_eq, computeResponse_fallback2 _ hm hk,
    stripAnsi_replicate_space, removeArtifacts_replicate_space,
    collapseNewlines_replicate_space, pyStrip_replicate_space]

/-- Witness for C7 (amended): a concrete marker-free, keyword-free transcript
parses to the artifact-stripped text, which is non-empty. -/
theorem c7_witness :
    (parse_cli_output "plain transcript text\nline two goes here".data).response =
      pyStrip (collapseNewlines (removeArtifacts
        (stripAnsi "plain transcript text\nline two goes here".data))) ∧
    (parse_cli_output "plain transcript text\nline two goes here".data).response ≠ [] := by
  have h := c7_fallback_amended "plain transcript text\nline two goes here".data
    (by decide) (by decide)
  exact ⟨h.1, h.2 (by decide)⟩

/-- Witness for C10: the empty prompt and an over-long prompt are both rejected
with the documented messages, with no spawn and no backoff. -/
theorem c10_witness :
    run_cli_command "q".data [] "claude-3.5-sonnet".data (some 3) 3
        (fun _ => .timedOut) =
      ⟨.error (.valueError "Prompt must be a non-empty string".data), [], [], []⟩ ∧
    run_cli_command "q".data (List.replicate 10001 'a') "claude-3.5-sonnet".data
        (some 3) 3 (fun _ => .timedOut) =
      ⟨.error (.valueError "Prompt too long".data), [], [], []⟩ ∧
    run_cli_command "q".data "hi".data (List.replicate 101 'm') (some 3) 3
        (fun _ => .timedOut) =
      ⟨.error (.valueError "Invalid model specification".data), [], [], []⟩ := by
  refine ⟨(c10_input_validation _ _ _ _ _ _).1 rfl,
    (c10_input_validation _ _ _ _ _ _).2.1 (by simp only [List.length_replicate]; omega),
    (c10_input_validation _ _ _ _ _ _).2.2 (by decide) (by decide)
      (by simp only [List.length_replicate]; omega)⟩

end AmazonQ
